import Mathlib

/-!
Verification of the stt-keyboard push-to-talk dictation utility.

Shallow embedding of the pieces the claims are about:
* `mickey/transcriber.py` — class `Transcriber` (lazy model load, CUDA→CPU
  fallback, segment joining);
* `mickey/recorder.py` — class `AudioRecorder` (block buffering, stop
  concatenation);
* `mickey/typer.py` — class `TextTyper`, SendInput path (batching,
  UTF-16 surrogate splitting, down/up event pairs);
* `mickey/hotkey.py` — class `HotkeyListener` (edge latching);
* `mickey/tray.py` — class `MickeyApp` (session state machine over
  `_is_recording` / `_is_processing` / `_pending_start` / `_pending_stop` /
  `_last_stop_time`, driven by hotkey callbacks, the 20ms poll tick and the
  transcription-result signals).

Python mutable objects become explicit state passing; raised exceptions
become explicit error values carried alongside the post-mutation state
(Python `self` mutations persist even when an exception propagates); the
black-box collaborators (`WhisperModel` construction, the model's
`transcribe` call, microphone permission, stream opening, the wall clock)
become oracle parameters.  Wall-clock times are naturals measured in
milliseconds, so the source's `0.15` second debounce constant is `150`.
-/

/-- An exception escaping a gateway call: either the typed
`TranscriptionError` defined in `mickey/transcriber.py`, or some other,
unwrapped Python exception propagating out. -/
inductive PyError where
  | transcriptionError
  | raw
deriving DecidableEq, Repr

/-- State of a `Transcriber` (`mickey/transcriber.py`).  `model` is `none`
while `self._model is None`; once loaded it records the
`(model_size, device, compute_type)` arguments the underlying
`WhisperModel` was constructed with. -/
structure Transcriber where
  modelSize : String
  language : String
  initialPrompt : String
  device : String
  computeType : String
  model : Option (String × String × String)
deriving DecidableEq, Repr

/-- `Transcriber.__init__`: a `device` of `"auto"` resolves through
`_detect_device` (an external CUDA probe, modelled by its result
`detected`); an explicit device keeps the requested device and compute
type.  The model itself is not loaded yet. -/
def Transcriber.make (modelSize computeType device language initialPrompt : String)
    (detected : String × String) : Transcriber :=
  if device = "auto" then
    { modelSize := modelSize, language := language, initialPrompt := initialPrompt,
      device := detected.1, computeType := detected.2, model := none }
  else
    { modelSize := modelSize, language := language, initialPrompt := initialPrompt,
      device := device, computeType := computeType, model := none }

/-- `Transcriber._ensure_model`, with `WhisperModel` construction modelled
by the oracle `ok` (`ok n` tells whether the `n`-th construction attempt of
this call succeeds).  Returns the post-call state, the number of
construction attempts made, and the exception raised, if any.  Faithful to
the source: a memoized model short-circuits; on a first-attempt failure
with `device == "cuda"` the fields are mutated to `cpu`/`int8` and a second
construction is attempted — that second call is *not* inside a `try`, so
its failure escapes as the raw underlying exception; a first-attempt
failure on a non-CUDA device is wrapped in `TranscriptionError`. -/
def Transcriber.ensureModel (t : Transcriber) (ok : Nat → Bool) :
    Transcriber × Nat × Option PyError :=
  match t.model with
  | some _ => (t, 0, none)
  | none =>
    if ok 0 then
      ({ t with model := some (t.modelSize, t.device, t.computeType) }, 1, none)
    else if t.device = "cuda" then
      let t1 : Transcriber := { t with device := "cpu", computeType := "int8" }
      if ok 1 then
        ({ t1 with model := some (t1.modelSize, "cpu", t1.computeType) }, 2, none)
      else (t1, 2, some PyError.raw)
    else (t, 1, some PyError.transcriptionError)

/-- Python `str.strip()` on a string modelled as its character list:
drop leading and trailing whitespace. -/
def pyStrip (s : List Char) : List Char :=
  ((s.dropWhile Char.isWhitespace).reverse.dropWhile Char.isWhitespace).reverse

/-- Python `" ".join(xs)`: the pieces joined with a single-space
separator. -/
def pySpaceJoin (xs : List (List Char)) : List Char :=
  List.intercalate [' '] xs

/-- `Transcriber.transcribe`.  Audio is a list of samples; text is a list
of characters; the black-box model call is the oracle `runModel`
(`Except.ok segs` yields the returned segment texts in order,
`Except.error` models the model raising, which the source wraps in
`TranscriptionError`).  Empty audio short-circuits before
`_ensure_model`.  Segment texts are each stripped, joined with a single
space and the result stripped, exactly as the source's
`" ".join(segment.text.strip() ...)` followed by `.strip()`. -/
def Transcriber.transcribe (t : Transcriber) (ok : Nat → Bool)
    (runModel : List Int → Except Unit (List (List Char))) (audio : List Int) :
    Transcriber × Nat × Except PyError (List Char) :=
  if audio.length = 0 then (t, 0, Except.ok [])
  else
    match t.ensureModel ok with
    | (t1, n, some e) => (t1, n, Except.error e)
    | (t1, n, none) =>
      match runModel audio with
      | Except.error _ => (t1, n, Except.error PyError.transcriptionError)
      | Except.ok segs =>
          (t1, n, Except.ok (pyStrip (pySpaceJoin (segs.map pyStrip))))

/-- A fresh gateway explicitly requesting CUDA, used as a concrete
instance in witnesses. -/
def cudaGateway : Transcriber :=
  Transcriber.make "base" "float16" "cuda" "en" "" ("cpu", "int8")

/-- A fresh gateway explicitly requesting the CPU, used as a concrete
instance in witnesses. -/
def cpuGateway : Transcriber :=
  Transcriber.make "base" "int8" "cpu" "en" "" ("cpu", "int8")

/-- A gateway whose model is already loaded, used as a concrete instance in
witnesses. -/
def loadedGateway : Transcriber :=
  { modelSize := "base", language := "en", initialPrompt := "",
    device := "cpu", computeType := "int8", model := some ("base", "cpu", "int8") }

/-- State of an `AudioRecorder` (`mickey/recorder.py`).  A sample block is
the flattened copy of one callback's `indata` (row-major, as
`np.concatenate(..., axis=0).flatten()` reads it); `streamOpen` stands for
`self._stream is not None`, `cleanupPending` for
`not self._cleanup_complete.is_set()`.  The RMS metering level is
presentation-only and not part of any claim, so it is not modelled. -/
structure AudioRecorder where
  sampleRate : Nat
  channels : Nat
  maxDuration : Nat
  recording : Bool
  audioData : List (List Int)
  streamOpen : Bool
  cleanupPending : Bool
  startTime : Nat
deriving DecidableEq, Repr

/-- `AudioRecorder.start` (the state-relevant part): clears the block
buffer, sets the recording flag and the start timestamp, and opens a fresh
input stream. -/
def AudioRecorder.start (r : AudioRecorder) (now : Nat) : AudioRecorder :=
  { r with audioData := [], recording := true, startTime := now, streamOpen := true }

/-- `AudioRecorder._audio_callback`: while the recording flag is set,
appends a copy of the incoming block to the buffer; otherwise drops it. -/
def AudioRecorder.audioCallback (r : AudioRecorder) (indata : List Int) : AudioRecorder :=
  if r.recording then { r with audioData := r.audioData ++ [indata] } else r

/-- `AudioRecorder.stop`: clears the recording flag, detaches the stream
(scheduling asynchronous teardown, i.e. marking cleanup pending when a
stream was open), empties the block buffer, and returns the flat
concatenation of the buffered blocks — with the source's explicit
empty-buffer guard in front of `np.concatenate`, which would raise on an
empty list. -/
def AudioRecorder.stop (r : AudioRecorder) : AudioRecorder × List Int :=
  let pending := if r.streamOpen then true else r.cleanupPending
  let r1 : AudioRecorder :=
    { r with recording := false, streamOpen := false, cleanupPending := pending }
  let data := r1.audioData
  let r2 : AudioRecorder := { r1 with audioData := [] }
  if data.isEmpty then (r2, []) else (r2, data.flatten)

/-- `AudioRecorder.exceeded_max_duration`: true iff recording, a positive
max duration is configured, and the elapsed time reaches it. -/
def AudioRecorder.exceededMaxDuration (r : AudioRecorder) (now : Nat) : Bool :=
  if !r.recording || r.maxDuration = 0 then false
  else decide (r.startTime + r.maxDuration ≤ now)

/-- The keys seen by the hotkey listener: the two right-Alt variants
accepted by `HotkeyListener._is_hotkey`, or any other key. -/
inductive HKey where
  | altR
  | altGr
  | other (code : Nat)
deriving DecidableEq, Repr

/-- `HotkeyListener._is_hotkey`: `key in (Key.alt_r, Key.alt_gr)`. -/
def isHotkey : HKey → Bool
  | HKey.altR => true
  | HKey.altGr => true
  | HKey.other _ => false

/-- State of a `HotkeyListener` (`mickey/hotkey.py`): the latch
`self._hotkey_active`. -/
structure HotkeyState where
  hotkeyActive : Bool
deriving DecidableEq, Repr

/-- A raw key event delivered by the OS input hook. -/
inductive RawKeyEvent where
  | press (k : HKey)
  | release (k : HKey)
deriving DecidableEq, Repr

/-- `HotkeyListener._on_press`: on a hotkey key, fire the press callback
only when the latch was inactive, latching it.  The returned boolean tells
whether the press callback was invoked. -/
def hotkeyOnPress (s : HotkeyState) (k : HKey) : HotkeyState × Bool :=
  if isHotkey k then
    if s.hotkeyActive then (s, false) else ({ hotkeyActive := true }, true)
  else (s, false)

/-- `HotkeyListener._on_release`: on a hotkey key, fire the release
callback only when the latch was active, clearing it. -/
def hotkeyOnRelease (s : HotkeyState) (k : HKey) : HotkeyState × Bool :=
  if isHotkey k then
    if s.hotkeyActive then ({ hotkeyActive := false }, true) else (s, false)
  else (s, false)

/-- Which user callback a raw key event triggered. -/
inductive CallbackKind where
  | pressCb
  | releaseCb
deriving DecidableEq, Repr

/-- One raw key event through the listener, also reporting the callback it
invoked, if any. -/
def hotkeyStep (s : HotkeyState) : RawKeyEvent → HotkeyState × Option CallbackKind
  | RawKeyEvent.press k =>
    let r := hotkeyOnPress s k
    (r.1, if r.2 then some CallbackKind.pressCb else none)
  | RawKeyEvent.release k =>
    let r := hotkeyOnRelease s k
    (r.1, if r.2 then some CallbackKind.releaseCb else none)

/-- A whole sequence of raw key events through the listener, collecting the
callback invocations in order. -/
def hotkeyRun (s : HotkeyState) : List RawKeyEvent → HotkeyState × List CallbackKind
  | [] => (s, [])
  | e :: es =>
    let r := hotkeyStep s e
    let rest := hotkeyRun r.1 es
    (rest.1, (match r.2 with | some cb => [cb] | none => []) ++ rest.2)

/-- Strict alternation of callback invocations, tracked by the latch value
expected before the next invocation: from inactive the next callback must
be a press, from active it must be a release. -/
def alternatesFrom : Bool → List CallbackKind → Bool
  | _, [] => true
  | false, CallbackKind.pressCb :: rest => alternatesFrom true rest
  | true, CallbackKind.releaseCb :: rest => alternatesFrom false rest
  | _, _ => false

/-- One injected code-unit event of the SendInput path
(`mickey/typer.py`, `_type_via_sendinput`): the UTF-16 code unit placed in
`wScan`, and whether `KEYEVENTF_KEYUP` is set. -/
structure InputEvent where
  wScan : Nat
  keyUp : Bool
deriving DecidableEq, Repr

/-- The UTF-16 code units one character is mapped to, exactly as the
source computes them: a code point above the basic multilingual plane is
split into a high/low surrogate pair with shift and mask, anything else is
a single unit. -/
def utf16Units (cp : Nat) : List Nat :=
  if cp > 0xFFFF then
    [0xD800 + ((cp - 0x10000) >>> 10), 0xDC00 + ((cp - 0x10000) &&& 0x3FF)]
  else [cp]

/-- The injected events for one character: each of its code units as a
key-down event followed by a key-up event. -/
def charEvents (cp : Nat) : List InputEvent :=
  (utf16Units cp).flatMap fun u => [⟨u, false⟩, ⟨u, true⟩]

/-- `range(0, len(text), CHUNK_SIZE)` slicing with `CHUNK_SIZE = 20`:
the fixed-size batches `text[i : i + 20]`. -/
def chunked : List Nat → List (List Nat)
  | [] => []
  | x :: xs => ((x :: xs).take 20) :: chunked ((x :: xs).drop 20)
termination_by l => l.length
decreasing_by simp [List.length_drop]; omega

/-- `TextTyper._type_via_sendinput`: one `SendInput` submission per batch,
each submission carrying the down/up event pairs of every code unit of the
batch's characters, in order. -/
def typeViaSendInput (text : List Nat) : List (List InputEvent) :=
  (chunked text).map fun chunk => chunk.flatMap charEvents

/-- `TextTyper.type_text` with the SendInput method selected: empty text is
a no-op returning success (zero submissions); otherwise the SendInput path
runs, which always reports success. -/
def typeTextSendInput (text : List Nat) : List (List InputEvent) × Bool :=
  if text.isEmpty then ([], true) else (typeViaSendInput text, true)

/-- The flag state of the session controller (`mickey/tray.py`, class
`MickeyApp`): `_is_recording`, `_is_processing`, `_pending_start`,
`_pending_stop` and `_last_stop_time` (in milliseconds; `0` initially and
after a start, i.e. far outside any debounce window).  `Idle` is the state
with both `isRecording` and `isProcessing` false. -/
structure CState where
  isRecording : Bool
  isProcessing : Bool
  pendingStart : Bool
  pendingStop : Bool
  lastStopTime : Nat
deriving DecidableEq, Repr

/-- `MickeyApp._on_hotkey_press` (pynput thread): ignored while recording
or processing, ignored within 150ms of the previous stop
(`time.time() - self._last_stop_time < 0.15`, i.e. `now < lastStop + 150`
in milliseconds), otherwise sets `_pending_start`. -/
def onHotkeyPress (s : CState) (now : Nat) : CState :=
  if s.isRecording || s.isProcessing then s
  else if now < s.lastStopTime + 150 then s
  else { s with pendingStart := true }

/-- `MickeyApp._on_hotkey_release` (pynput thread): sets `_pending_stop`
when recording or when a start is pending. -/
def onHotkeyRelease (s : CState) : CState :=
  if s.isRecording || s.pendingStart then { s with pendingStop := true } else s

/-- `MickeyApp._do_start_recording` (main thread): a no-op while recording
or processing; aborted, state untouched, when microphone permission is
denied (`permOk`); otherwise sets `_is_recording` and zeroes
`_last_stop_time`, then attempts `self.recorder.start()` (`startOk`),
reverting `_is_recording` when that raises. -/
def doStartRecording (s : CState) (permOk startOk : Bool) : CState :=
  if s.isRecording || s.isProcessing then s
  else if permOk = false then s
  else
    let s1 : CState := { s with isRecording := true, lastStopTime := 0 }
    if startOk then s1 else { s1 with isRecording := false }

/-- `MickeyApp._do_stop_recording` (main thread, state part): a no-op
unless recording; otherwise clears `_is_recording`, sets `_is_processing`
and records the stop timestamp, then hands the captured buffer to the
transcription worker. -/
def doStopRecording (s : CState) (now : Nat) : CState :=
  if s.isRecording = false then s
  else { s with isRecording := false, isProcessing := true, lastStopTime := now }

/-- First half of `MickeyApp._check_pending_actions`: drain
`_pending_start` into `_do_start_recording`. -/
def drainStart (s : CState) (permOk startOk : Bool) : CState :=
  if s.pendingStart then doStartRecording { s with pendingStart := false } permOk startOk
  else s

/-- Second half of `MickeyApp._check_pending_actions`: drain
`_pending_stop` into `_do_stop_recording`. -/
def drainStop (s : CState) (now : Nat) : CState :=
  if s.pendingStop then doStopRecording { s with pendingStop := false } now else s

/-- Last part of `MickeyApp._check_pending_actions`: while recording, an
exceeded max duration (`exceeded`, the recorder's
`exceeded_max_duration` oracle) synthesizes a stop request. -/
def maxDurationCheck (s : CState) (exceeded : Bool) : CState :=
  if s.isRecording && exceeded then { s with pendingStop := true } else s

/-- `MickeyApp._check_pending_actions`, one 20ms poll tick on the main
thread: drain the pending start, then the pending stop, then the
max-duration check. -/
def checkPendingActions (s : CState) (permOk startOk exceeded : Bool) (now : Nat) : CState :=
  maxDurationCheck (drainStop (drainStart s permOk startOk) now) exceeded

/-- `MickeyApp._finish_processing`, reached from both
`_on_transcription_finished` and `_on_transcription_error`: clears
`_is_processing`. -/
def finishProcessing (s : CState) : CState :=
  { s with isProcessing := false }

/-- The events driving the controller: a hotkey press at wall-clock `now`,
a hotkey release, one poll tick (with the outcomes of the permission
check, the stream start and the max-duration check, and the wall clock),
and a delivered transcription result (success or error). -/
inductive CEvent where
  | press (now : Nat)
  | release
  | tick (permOk startOk exceeded : Bool) (now : Nat)
  | result (isError : Bool)
deriving DecidableEq, Repr

/-- One controller event. -/
def controllerStep (s : CState) : CEvent → CState
  | CEvent.press now => onHotkeyPress s now
  | CEvent.release => onHotkeyRelease s
  | CEvent.tick permOk startOk exceeded now => checkPendingActions s permOk startOk exceeded now
  | CEvent.result _ => finishProcessing s

/-- The controller state right after `MickeyApp.__init__`: all flags
false, `_last_stop_time = 0`. -/
def initController : CState :=
  { isRecording := false, isProcessing := false, pendingStart := false,
    pendingStop := false, lastStopTime := 0 }

/-- The controller state after a sequence of events from startup. -/
def runController (es : List CEvent) : CState :=
  es.foldl controllerStep initController

/-- An idle controller with a start pending, used as a concrete instance
in witnesses. -/
def idleStartPending : CState :=
  { isRecording := false, isProcessing := false, pendingStart := true,
    pendingStop := false, lastStopTime := 0 }

/-- A processing controller, used as a concrete instance in witnesses. -/
def processingState : CState :=
  { isRecording := false, isProcessing := true, pendingStart := false,
    pendingStop := false, lastStopTime := 0 }

/-- A recording controller with a stop pending, used as a concrete
instance in witnesses. -/
def recordingStopPending : CState :=
  { isRecording := true, isProcessing := false, pendingStart := false,
    pendingStop := true, lastStopTime := 0 }

/-- An idle controller that stopped at time 1000ms, used as a concrete
instance in witnesses. -/
def idleAfterStop : CState :=
  { isRecording := false, isProcessing := false, pendingStart := false,
    pendingStop := false, lastStopTime := 1000 }

/-- Claim C2: for a gateway constructed with the explicit accelerated
device `"cuda"`, when the first model construction fails, `_ensure_model`
retries exactly once with device `"cpu"` and compute type `"int8"`; when
that retry succeeds the gateway ends with device `"cpu"`, compute type
`"int8"` and the model memoized, exactly 2 construction attempts were
made, and a later `_ensure_model` call makes 0 further construction
attempts and leaves the state unchanged. -/
theorem c2_cuda_fallback_retry
    (size ct lang prompt : String) (detected : String × String) (ok ok2 : Nat → Bool)
    (h0 : ok 0 = false) (h1 : ok 1 = true) :
    (Transcriber.make size ct "cuda" lang prompt detected).ensureModel ok
      = ({ modelSize := size, language := lang, initialPrompt := prompt,
           device := "cpu", computeType := "int8",
           model := some (size, "cpu", "int8") }, 2, none)
    ∧ Transcriber.ensureModel
        { modelSize := size, language := lang, initialPrompt := prompt,
          device := "cpu", computeType := "int8", model := some (size, "cpu", "int8") } ok2
      = ({ modelSize := size, language := lang, initialPrompt := prompt,
           device := "cpu", computeType := "int8",
           model := some (size, "cpu", "int8") }, 0, none) := by
  constructor
  · unfold Transcriber.make Transcriber.ensureModel
    simp [h0, h1]
  · rfl

/-- Witness for C2 at a concrete gateway and construction oracle. -/
theorem c2_cuda_fallback_retry_witness :
    cudaGateway.ensureModel (fun n => n == 1) = (loadedGateway, 2, none)
    ∧ loadedGateway.ensureModel (fun _ => false) = (loadedGateway, 0, none) :=
  c2_cuda_fallback_retry "base" "float16" "en" "" ("cpu", "int8")
    (fun n => n == 1) (fun _ => false) rfl rfl

/-- Claim C3 (evaluation of the code at the failing input): when both the
initial CUDA construction and the CPU-fallback construction fail, the
fallback `WhisperModel` call — which the source does not wrap in a
`try` — raises the raw underlying exception, not `TranscriptionError`
(only the device/compute fields are left mutated to cpu/int8); a gateway
whose device is already `"cpu"` wraps a single construction failure in
`TranscriptionError` with no fallback attempt. -/
theorem c3_double_failure_raises_raw :
    cudaGateway.ensureModel (fun _ => false)
      = ({ cudaGateway with device := "cpu", computeType := "int8" }, 2, some PyError.raw)
    ∧ cpuGateway.ensureModel (fun _ => false)
      = (cpuGateway, 1, some PyError.transcriptionError) :=
  ⟨rfl, rfl⟩

/-- Claim C7: `transcribe` on an empty sample array returns the empty
string, makes zero model-construction attempts and leaves the gateway
state (in particular its loaded-model field) unchanged. -/
theorem c7_empty_audio_short_circuit (t : Transcriber) (ok : Nat → Bool)
    (runModel : List Int → Except Unit (List (List Char))) (audio : List Int)
    (h : audio.length = 0) :
    t.transcribe ok runModel audio = (t, 0, Except.ok []) := by
  unfold Transcriber.transcribe
  simp [h]

/-- Witness for C7 at a concrete unloaded gateway and empty audio. -/
theorem c7_empty_audio_short_circuit_witness :
    ([] : List Int).length = 0
    ∧ cudaGateway.transcribe (fun _ => false) (fun _ => Except.error ()) []
        = (cudaGateway, 0, Except.ok []) :=
  ⟨rfl, c7_empty_audio_short_circuit cudaGateway (fun _ => false)
    (fun _ => Except.error ()) [] rfl⟩

/-- Claim C8: with a loaded model, for every list of segments the model
returns, `transcribe` yields the segment texts each trimmed, joined with
single spaces, the final result trimmed (and makes no further
construction attempt). -/
theorem c8_segment_join (t : Transcriber) (ok : Nat → Bool)
    (runModel : List Int → Except Unit (List (List Char))) (audio : List Int)
    (segs : List (List Char)) (m : String × String × String)
    (hm : t.model = some m) (ha : audio.length ≠ 0)
    (hrun : runModel audio = Except.ok segs) :
    t.transcribe ok runModel audio
      = (t, 0, Except.ok (pyStrip (pySpaceJoin (segs.map pyStrip)))) := by
  unfold Transcriber.transcribe Transcriber.ensureModel
  simp [hm, ha, hrun]

/-- Witness for C8: segments `["Hello", "world"]` produce `"Hello world"`. -/
theorem c8_segment_join_witness :
    loadedGateway.model = some ("base", "cpu", "int8")
    ∧ ([0] : List Int).length ≠ 0
    ∧ loadedGateway.transcribe (fun _ => true)
        (fun _ => Except.ok ["Hello".toList, "world".toList]) [0]
        = (loadedGateway, 0, Except.ok "Hello world".toList) := by
  refine ⟨rfl, by decide, ?_⟩
  have h := c8_segment_join loadedGateway (fun _ => true)
    (fun _ => Except.ok ["Hello".toList, "world".toList]) [0]
    ["Hello".toList, "world".toList] ("base", "cpu", "int8")
    rfl (by decide) rfl
  exact h.trans (congrArg (fun s => (loadedGateway, 0, Except.ok s)) (by decide))

/-- While the recording flag is set, a run of audio callbacks appends all
incoming blocks to the buffer in arrival order. -/
theorem foldl_audioCallback_of_recording (blocks : List (List Int)) :
    ∀ r : AudioRecorder, r.recording = true →
      blocks.foldl AudioRecorder.audioCallback r
        = { r with audioData := r.audioData ++ blocks } := by
  induction blocks with
  | nil => intro r _; simp
  | cons b bs ih =>
    intro r h
    have hstep : AudioRecorder.audioCallback r b = { r with audioData := r.audioData ++ [b] } := by
      simp [AudioRecorder.audioCallback, h]
    simp only [List.foldl_cons, hstep]
    rw [ih { r with audioData := r.audioData ++ [b] } (by simpa using h)]
    simp

/-- Claim C6: after a `start` and any sequence of callback blocks, `stop`
returns the flat concatenation of the blocks in arrival order (the empty
array — not an error — when no block arrived), and leaves the recording
flag cleared and the internal block buffer empty. -/
theorem c6_stop_returns_flat_concatenation
    (r0 : AudioRecorder) (now : Nat) (blocks : List (List Int)) :
    ((blocks.foldl AudioRecorder.audioCallback (r0.start now)).stop).2 = blocks.flatten
    ∧ ((blocks.foldl AudioRecorder.audioCallback (r0.start now)).stop).1.recording = false
    ∧ ((blocks.foldl AudioRecorder.audioCallback (r0.start now)).stop).1.audioData = []
    ∧ ((r0.start now).stop).2 = [] := by
  have hrec : (r0.start now).recording = true := rfl
  rw [foldl_audioCallback_of_recording blocks _ hrec]
  unfold AudioRecorder.stop AudioRecorder.start
  cases blocks <;> simp

/-- The batches of the SendInput path concatenate back to the original
text: the slicing is a partition. -/
theorem chunked_flatten (l : List Nat) : (chunked l).flatten = l := by
  induction l using chunked.induct with
  | case1 => rw [chunked]; rfl
  | case2 x xs ih =>
    have hd : (x :: xs).drop 20 = xs.drop 19 := rfl
    have ht : (x :: xs).take 20 = x :: xs.take 19 := rfl
    rw [hd] at ih
    rw [chunked, List.flatten_cons, hd, ih, ht]
    simp [List.take_append_drop]

/-- The SendInput path produces one batch per started 20-character slice,
i.e. `(len + 19) / 20` batches. -/
theorem chunked_length (l : List Nat) : (chunked l).length = (l.length + 19) / 20 := by
  induction l using chunked.induct with
  | case1 => rw [chunked]; rfl
  | case2 x xs ih =>
    have hd : (x :: xs).drop 20 = xs.drop 19 := rfl
    rw [hd] at ih
    rw [chunked, List.length_cons, hd, ih, List.length_drop, List.length_cons]
    omega

/-- Every batch of the SendInput path holds at most 20 characters. -/
theorem chunked_le_twenty (l : List Nat) : ∀ c ∈ chunked l, c.length ≤ 20 := by
  induction l using chunked.induct with
  | case1 =>
    intro c hc
    rw [chunked] at hc
    simp at hc
  | case2 x xs ih =>
    have hd : (x :: xs).drop 20 = xs.drop 19 := rfl
    rw [hd] at ih
    intro c hc
    rw [chunked, hd] at hc
    rcases List.mem_cons.mp hc with rfl | hmem
    · exact List.length_take_le 20 (x :: xs)
    · exact ih c hmem

/-- Claim C9: `type_text` in SendInput mode partitions the text into
fixed-size batches of 20 characters — `(len + 19) / 20` submissions, a
partition with every batch at most 20 characters; a character in the basic
multilingual plane yields exactly one code unit as a down+up event pair; a
character above it yields exactly the two UTF-16 surrogate code units the
source computes, each as a down+up pair, and decoding that pair recovers
the original code point; empty text is a no-op returning success. -/
theorem c9_sendinput_batches_and_surrogates :
    (∀ text : List Nat, ((typeTextSendInput text).1).length = (text.length + 19) / 20)
    ∧ (∀ text : List Nat, (chunked text).flatten = text)
    ∧ (∀ text : List Nat, ∀ c ∈ chunked text, c.length ≤ 20)
    ∧ (∀ cp : Nat, cp ≤ 0xFFFF → charEvents cp = [⟨cp, false⟩, ⟨cp, true⟩])
    ∧ (∀ cp : Nat, 0xFFFF < cp →
        (utf16Units cp).length = 2
        ∧ charEvents cp
          = [⟨0xD800 + ((cp - 0x10000) >>> 10), false⟩,
             ⟨0xD800 + ((cp - 0x10000) >>> 10), true⟩,
             ⟨0xDC00 + ((cp - 0x10000) &&& 0x3FF), false⟩,
             ⟨0xDC00 + ((cp - 0x10000) &&& 0x3FF), true⟩]
        ∧ 0x10000 + ((0xD800 + ((cp - 0x10000) >>> 10)) - 0xD800) * 0x400
            + ((0xDC00 + ((cp - 0x10000) &&& 0x3FF)) - 0xDC00) = cp)
    ∧ typeTextSendInput [] = ([], true) := by
  refine ⟨?_, chunked_flatten, chunked_le_twenty, ?_, ?_, rfl⟩
  · intro text
    cases text with
    | nil => rfl
    | cons x xs =>
      show (typeViaSendInput (x :: xs)).length = _
      rw [typeViaSendInput, List.length_map, chunked_length]
  · intro cp h
    have hn : ¬ cp > 0xFFFF := by omega
    simp [charEvents, utf16Units, hn]
  · intro cp h
    have hs : (cp - 0x10000) >>> 10 = (cp - 0x10000) / 1024 := by
      rw [Nat.shiftRight_eq_div_pow]
    have hm : (cp - 0x10000) &&& 0x3FF = (cp - 0x10000) % 1024 := by
      have h2 := Nat.and_pow_two_sub_one_eq_mod (cp - 0x10000) 10
      norm_num at h2
      exact h2
    refine ⟨by simp [utf16Units, h], by simp [charEvents, utf16Units, h], ?_⟩
    rw [hs, hm]
    omega

/-- Witness for C9: a 50-character string issues exactly 3 batches; the
astral code point U+1F600 splits into the surrogate pair D83D/DE00 as two
down+up event pairs; the letter `A` is one down+up pair; empty text is a
no-op success. -/
theorem c9_sendinput_batches_and_surrogates_witness :
    ((typeTextSendInput (List.replicate 50 97)).1).length = 3
    ∧ charEvents 65 = [⟨65, false⟩, ⟨65, true⟩]
    ∧ (utf16Units 0x1F600).length = 2
    ∧ charEvents 0x1F600
        = [⟨0xD83D, false⟩, ⟨0xD83D, true⟩, ⟨0xDE00, false⟩, ⟨0xDE00, true⟩]
    ∧ typeTextSendInput [] = ([], true) := by
  obtain ⟨h1, _, _, h4, h5, h6⟩ := c9_sendinput_batches_and_surrogates
  have ha := h5 0x1F600 (by decide)
  exact ⟨(h1 (List.replicate 50 97)).trans (by decide),
         h4 65 (by decide), ha.1, ha.2.1.trans (by decide), h6⟩

/-- Over every raw key-event sequence, the callback invocations the
listener makes strictly alternate press/release, tracked by the latch. -/
theorem hotkeyRun_alternates (es : List RawKeyEvent) :
    ∀ s : HotkeyState, alternatesFrom s.hotkeyActive (hotkeyRun s es).2 = true := by
  induction es with
  | nil => intro s; simp [hotkeyRun, alternatesFrom]
  | cons e es ih =>
    intro s
    obtain ⟨a⟩ := s
    cases e with
    | press k =>
      cases hk : isHotkey k
      · simpa [hotkeyRun, hotkeyStep, hotkeyOnPress, hk] using ih ⟨a⟩
      · cases a
        · simpa [hotkeyRun, hotkeyStep, hotkeyOnPress, hk, alternatesFrom] using ih ⟨true⟩
        · simpa [hotkeyRun, hotkeyStep, hotkeyOnPress, hk] using ih ⟨true⟩
    | release k =>
      cases hk : isHotkey k
      · simpa [hotkeyRun, hotkeyStep, hotkeyOnRelease, hk] using ih ⟨a⟩
      · cases a
        · simpa [hotkeyRun, hotkeyStep, hotkeyOnRelease, hk] using ih ⟨false⟩
        · simpa [hotkeyRun, hotkeyStep, hotkeyOnRelease, hk, alternatesFrom] using ih ⟨false⟩

/-- Claim C10: the hotkey listener latches edges — the press callback
fires only on an inactive→active transition of the hotkey (so OS
auto-repeat of a held hotkey fires it at most once until a release), the
release callback fires only while active, and over every raw key-event
sequence the two callbacks strictly alternate. -/
theorem c10_hotkey_edge_latching :
    (∀ (s : HotkeyState) (k : HKey), (hotkeyOnPress s k).2 = true →
      s.hotkeyActive = false ∧ isHotkey k = true)
    ∧ (∀ (s : HotkeyState) (k : HKey), (hotkeyOnRelease s k).2 = true →
      s.hotkeyActive = true ∧ isHotkey k = true)
    ∧ (∀ (s : HotkeyState) (k k2 : HKey), (hotkeyOnPress s k).2 = true →
      (hotkeyOnPress (hotkeyOnPress s k).1 k2).2 = false)
    ∧ (∀ (es : List RawKeyEvent) (s : HotkeyState),
      alternatesFrom s.hotkeyActive (hotkeyRun s es).2 = true) := by
  refine ⟨?_, ?_, ?_, fun es s => hotkeyRun_alternates es s⟩
  · intro s k h
    obtain ⟨a⟩ := s
    cases hk : isHotkey k <;> cases a <;> simp_all [hotkeyOnPress]
  · intro s k h
    obtain ⟨a⟩ := s
    cases hk : isHotkey k <;> cases a <;> simp_all [hotkeyOnRelease]
  · intro s k k2 h
    obtain ⟨a⟩ := s
    cases hk : isHotkey k <;> cases a <;> simp_all [hotkeyOnPress]

/-- Witness for C10 on the right-Alt key: a press from inactive fires the
press callback, a release from active fires the release callback, an
auto-repeated second press does not fire, and a
press/press/release run produces an alternating callback trace. -/
theorem c10_hotkey_edge_latching_witness :
    ((⟨false⟩ : HotkeyState).hotkeyActive = false ∧ isHotkey HKey.altR = true)
    ∧ ((⟨true⟩ : HotkeyState).hotkeyActive = true ∧ isHotkey HKey.altGr = true)
    ∧ (hotkeyOnPress (hotkeyOnPress ⟨false⟩ HKey.altR).1 HKey.altR).2 = false
    ∧ alternatesFrom (⟨false⟩ : HotkeyState).hotkeyActive
        (hotkeyRun ⟨false⟩ [RawKeyEvent.press HKey.altR, RawKeyEvent.press HKey.altR,
          RawKeyEvent.release HKey.altR]).2 = true := by
  obtain ⟨h1, h2, h3, h4⟩ := c10_hotkey_edge_latching
  exact ⟨h1 ⟨false⟩ HKey.altR rfl, h2 ⟨true⟩ HKey.altGr rfl,
         h3 ⟨false⟩ HKey.altR HKey.altR rfl, h4 _ ⟨false⟩⟩

/-- One controller event preserves the mutual exclusion of the recording
and processing flags. -/
theorem controllerStep_excl (s : CState) (e : CEvent)
    (h : (s.isRecording && s.isProcessing) = false) :
    ((controllerStep s e).isRecording && (controllerStep s e).isProcessing) = false := by
  obtain ⟨rec, proc, ps, pst, lst⟩ := s
  cases e with
  | press now =>
    simp only [controllerStep, onHotkeyPress]
    split_ifs <;> simp_all
  | release =>
    simp only [controllerStep, onHotkeyRelease]
    split_ifs <;> simp_all
  | tick p st ex now =>
    simp only [controllerStep, checkPendingActions, drainStart, drainStop, maxDurationCheck,
      doStartRecording, doStopRecording]
    cases rec <;> cases proc <;> cases ps <;> cases pst <;> cases p <;> cases st <;> cases ex <;>
      simp_all
  | result b =>
    simp only [controllerStep, finishProcessing]
    simp_all

/-- Mutual exclusion of the recording and processing flags is preserved by
every event sequence. -/
theorem foldl_controllerStep_excl (es : List CEvent) :
    ∀ s : CState, (s.isRecording && s.isProcessing) = false →
      ((es.foldl controllerStep s).isRecording
        && (es.foldl controllerStep s).isProcessing) = false := by
  induction es with
  | nil => intro s h; simpa using h
  | cons e es ih =>
    intro s h
    rw [List.foldl_cons]
    exact ih _ (controllerStep_excl s e h)

/-- Claim C1: the session states are mutually exclusive — over every event
sequence from startup the recording and processing flags are never both
set; the start handler is a no-op while recording or processing, so
Recording is entered only from Idle (only a poll tick with a pending start
from a non-recording, non-processing state sets the recording flag; press,
release and result events never do); Processing is entered only via a stop
taken while Recording (only a poll tick whose stop-drain finds the
recording flag set and a pending stop sets the processing flag); and
Processing returns to Idle only via a delivered transcription result —
press, release and tick events keep the processing flag set, only a result
event clears it. -/
theorem c1_session_state_machine :
    (∀ es : List CEvent,
      ((runController es).isRecording && (runController es).isProcessing) = false)
    ∧ (∀ (s : CState) (p st : Bool), (s.isRecording || s.isProcessing) = true →
      doStartRecording s p st = s)
    ∧ (∀ (s : CState) (now : Nat),
      (controllerStep s (CEvent.press now)).isRecording = s.isRecording)
    ∧ (∀ s : CState, (controllerStep s CEvent.release).isRecording = s.isRecording)
    ∧ (∀ (s : CState) (b : Bool),
      (controllerStep s (CEvent.result b)).isRecording = s.isRecording)
    ∧ (∀ (s : CState) (p st ex : Bool) (now : Nat), s.isRecording = false →
      (controllerStep s (CEvent.tick p st ex now)).isRecording = true →
      s.pendingStart = true ∧ s.isProcessing = false)
    ∧ (∀ (s : CState) (now : Nat),
      (controllerStep s (CEvent.press now)).isProcessing = s.isProcessing)
    ∧ (∀ s : CState, (controllerStep s CEvent.release).isProcessing = s.isProcessing)
    ∧ (∀ (s : CState) (p st ex : Bool) (now : Nat), s.isProcessing = false →
      (controllerStep s (CEvent.tick p st ex now)).isProcessing = true →
      (drainStart s p st).pendingStop = true ∧ (drainStart s p st).isRecording = true)
    ∧ (∀ (s : CState) (b : Bool),
      (controllerStep s (CEvent.result b)).isProcessing = false)
    ∧ (∀ (s : CState) (p st ex : Bool) (now : Nat), s.isProcessing = true →
      (controllerStep s (CEvent.tick p st ex now)).isProcessing = true) := by
  refine ⟨fun es => foldl_controllerStep_excl es initController rfl, ?_, ?_, ?_, ?_, ?_, ?_,
    ?_, ?_, ?_, ?_⟩
  · intro s p st h
    simp [doStartRecording, h]
  · intro s now
    simp only [controllerStep, onHotkeyPress]
    split_ifs <;> rfl
  · intro s
    simp only [controllerStep, onHotkeyRelease]
    split_ifs <;> rfl
  · intro s b
    rfl
  · intro s p st ex now hrec h
    obtain ⟨rec, proc, ps, pst, lst⟩ := s
    simp only [controllerStep, checkPendingActions, drainStart, drainStop, maxDurationCheck,
      doStartRecording, doStopRecording] at h ⊢
    cases rec <;> cases proc <;> cases ps <;> cases pst <;> cases p <;> cases st <;> cases ex <;>
      simp_all
  · intro s now
    simp only [controllerStep, onHotkeyPress]
    split_ifs <;> rfl
  · intro s
    simp only [controllerStep, onHotkeyRelease]
    split_ifs <;> rfl
  · intro s p st ex now hproc h
    obtain ⟨rec, proc, ps, pst, lst⟩ := s
    simp only [controllerStep, checkPendingActions, drainStart, drainStop, maxDurationCheck,
      doStartRecording, doStopRecording] at h ⊢
    cases rec <;> cases proc <;> cases ps <;> cases pst <;> cases p <;> cases st <;> cases ex <;>
      simp_all
  · intro s b
    rfl
  · intro s p st ex now hproc
    obtain ⟨rec, proc, ps, pst, lst⟩ := s
    simp only [controllerStep, checkPendingActions, drainStart, drainStop, maxDurationCheck,
      doStartRecording, doStopRecording]
    cases rec <;> cases proc <;> cases ps <;> cases pst <;> cases p <;> cases st <;> cases ex <;>
      simp_all

/-- Witness for C1 at concrete states and event sequences: a press/tick
run from startup keeps the flags exclusive; the start handler is a no-op
on a processing state; a tick on an idle state with a pending start enters
Recording from Idle; a tick on a recording state with a pending stop finds
the stop taken while recording; a result event clears the processing
flag. -/
theorem c1_session_state_machine_witness :
    ((runController [CEvent.press 200, CEvent.tick true true false 300]).isRecording &&
      (runController [CEvent.press 200, CEvent.tick true true false 300]).isProcessing) = false
    ∧ doStartRecording processingState true true = processingState
    ∧ (idleStartPending.pendingStart = true ∧ idleStartPending.isProcessing = false)
    ∧ ((drainStart recordingStopPending false false).pendingStop = true
        ∧ (drainStart recordingStopPending false false).isRecording = true)
    ∧ (controllerStep processingState (CEvent.result true)).isProcessing = false := by
  obtain ⟨h1, h2, _, _, _, h6, _, _, h9, h10, _⟩ := c1_session_state_machine
  exact ⟨h1 [CEvent.press 200, CEvent.tick true true false 300],
         h2 processingState true true rfl,
         h6 idleStartPending true true false 5 rfl rfl,
         h9 recordingStopPending false false false 7 rfl rfl,
         h10 processingState true⟩

/-- Claim C4: every recoverable error path leaves the controller in Idle —
a denied microphone permission makes the start handler abort with the
state completely untouched; a capture-stream start failure reverts the
recording flag (and leaves the processing flag alone), so the state is
Idle; and whatever the dispatched transcription worker delivers (text or
error), handling the result while Processing ends with both flags
false. -/
theorem c4_recoverable_errors_return_to_idle :
    (∀ (s : CState) (st : Bool), doStartRecording s false st = s)
    ∧ (∀ (s : CState) (p : Bool), s.isRecording = false →
      (doStartRecording s p false).isRecording = false
      ∧ (doStartRecording s p false).isProcessing = s.isProcessing)
    ∧ (∀ (s : CState) (b : Bool), s.isProcessing = true → s.isRecording = false →
      (controllerStep s (CEvent.result b)).isRecording = false
      ∧ (controllerStep s (CEvent.result b)).isProcessing = false) := by
  refine ⟨?_, ?_, ?_⟩
  · intro s st
    simp only [doStartRecording]
    split_ifs <;> simp_all
  · intro s p h
    obtain ⟨rec, proc, ps, pst, lst⟩ := s
    simp only [doStartRecording]
    cases proc <;> cases p <;> simp_all
  · intro s b hproc hrec
    obtain ⟨rec, proc, ps, pst, lst⟩ := s
    simp only [controllerStep, finishProcessing]
    simp_all

/-- Witness for C4 at concrete states: a permission-denied start on an
idle-after-stop state is the identity; a failed stream start from idle
leaves both flags clear; result delivery (success and error alike) on a
processing state clears both flags. -/
theorem c4_recoverable_errors_return_to_idle_witness :
    doStartRecording idleAfterStop false true = idleAfterStop
    ∧ ((doStartRecording idleAfterStop true false).isRecording = false
        ∧ (doStartRecording idleAfterStop true false).isProcessing
            = idleAfterStop.isProcessing)
    ∧ ((controllerStep processingState (CEvent.result false)).isRecording = false
        ∧ (controllerStep processingState (CEvent.result false)).isProcessing = false) := by
  obtain ⟨h1, h2, h3⟩ := c4_recoverable_errors_return_to_idle
  exact ⟨h1 idleAfterStop true, h2 idleAfterStop true rfl,
         h3 processingState false rfl rfl⟩

/-- Claim C5: debounce — while idle, a hotkey press strictly within 150ms
of the previous stop timestamp is ignored entirely (the state, in
particular `pending_start`, is unchanged, and the next poll tick starts no
recording from it), while a press at or after the window's end sets
`pending_start`. -/
theorem c5_press_debounce (s : CState) (now now2 : Nat) (p st ex : Bool)
    (hrec : s.isRecording = false) (hproc : s.isProcessing = false) :
    (now < s.lastStopTime + 150 → onHotkeyPress s now = s)
    ∧ (s.lastStopTime + 150 ≤ now → (onHotkeyPress s now).pendingStart = true)
    ∧ (s.pendingStart = false → now < s.lastStopTime + 150 →
      (controllerStep (controllerStep s (CEvent.press now))
        (CEvent.tick p st ex now2)).isRecording = false) := by
  refine ⟨?_, ?_, ?_⟩
  · intro h
    simp [onHotkeyPress, hrec, hproc, h]
  · intro h
    have h2 : ¬ now < s.lastStopTime + 150 := by omega
    simp [onHotkeyPress, hrec, hproc, h2]
  · intro hps h
    have hid : onHotkeyPress s now = s := by
      simp [onHotkeyPress, hrec, hproc, h]
    show (controllerStep (onHotkeyPress s now) (CEvent.tick p st ex now2)).isRecording = false
    rw [hid]
    obtain ⟨rec, proc, ps, pst, lst⟩ := s
    simp only [controllerStep, checkPendingActions, drainStart, drainStop, maxDurationCheck,
      doStartRecording, doStopRecording]
    cases pst <;> cases ex <;> simp_all

/-- Witness for C5: on an idle controller that stopped at 1000ms, a press
at 1100ms (within the window) is ignored and the following tick starts no
recording, while a press at 1150ms (the window's end) sets the pending
start. -/
theorem c5_press_debounce_witness :
    onHotkeyPress idleAfterStop 1100 = idleAfterStop
    ∧ (onHotkeyPress idleAfterStop 1150).pendingStart = true
    ∧ (controllerStep (controllerStep idleAfterStop (CEvent.press 1100))
        (CEvent.tick true true false 1120)).isRecording = false := by
  refine ⟨(c5_press_debounce idleAfterStop 1100 1120 true true false rfl rfl).1 (by decide),
    (c5_press_debounce idleAfterStop 1150 0 false false false rfl rfl).2.1 (by decide),
    (c5_press_debounce idleAfterStop 1100 1120 true true false rfl rfl).2.2 rfl (by decide)⟩
